import Mathlib

/-!
Verification of the arstyper Typing Test Engine (`src/test.rs`).

Shallow embedding conventions:
* Rust `String` values are modelled as `List Char` (the corpus words are
  lowercase ASCII, so byte indexing/slicing coincides with char indexing).
* `Keypress` carries a `char` and an unread timestamp (`_time`); the
  timestamp is never consulted, so a keypress is modelled as its `Char`.
* `ratatui::Span` is modelled by its text and the style it was given;
  the four styles drawn from `Styles` (`typed`, `incorrect`, `cursor`,
  `untyped`) become the constructors of `SpanClass`.
* A Rust call that panics (index out of bounds, `usize` underflow) is
  modelled as `none`; `handle_events` therefore returns `Option Test`.
* The completion channel (`tx.send(UiRequest::ChangeScreen(ResultsScreen))`)
  is modelled by a counter `sent` of messages pushed on the channel.
-/

namespace Arstyper

/-- `BKSPC`: the backspace sentinel character `0x08` (src/test.rs:15). -/
def BKSPC : Char := Char.ofNat 8

/-- `WORD_BKSPC`: the delete-word sentinel character `0x18` (src/test.rs:17). -/
def WORD_BKSPC : Char := Char.ofNat 24

/-- The style a rendered span is given: the four members of `Styles`
used by the engine (src/test.rs:117,122,168,171,180). -/
inductive SpanClass where
  | typed
  | incorrect
  | cursor
  | untyped
  deriving DecidableEq, Repr

/-- A `ratatui` `Span`: a piece of text plus the style it was given. -/
structure Span where
  text : List Char
  cls : SpanClass
  deriving DecidableEq, Repr

/-- `TestWord` (src/test.rs:36-41): a target word, its keypress log and
its incrementally maintained render spans. -/
structure TestWord where
  word : List Char
  presses : List Char
  spans : List Span
  deriving DecidableEq, Repr

/-- One step of the replay loop inside `TestWord::is_correct`
(src/test.rs:57-66): space is ignored, `BKSPC` pops the accumulator,
`WORD_BKSPC` resets it, any other character is appended. -/
def replayStep (s : List Char) (k : Char) : List Char :=
  if k = ' ' then s
  else if k = BKSPC then s.dropLast
  else if k = WORD_BKSPC then []
  else s ++ [k]

/-- Replay of a whole keypress log, starting from the empty string
(src/test.rs:56-66). -/
def replay (presses : List Char) : List Char :=
  presses.foldl replayStep []

/-- `TestWord::is_correct` (src/test.rs:55-68): the word is fully and
correctly typed when replaying its keypress log yields the target word. -/
def TestWord.is_correct (tw : TestWord) : Bool :=
  decide (replay tw.presses = tw.word)

/-- `TestWord::is_typed` (src/test.rs:71-79): true when the last keypress
is a space, otherwise falls back on `is_correct`. -/
def TestWord.is_typed (tw : TestWord) : Bool :=
  match tw.presses.getLast? with
  | some lp => if lp = ' ' then true else tw.is_correct
  | none => tw.is_correct

/-- `Test` (src/test.rs:83-89): the word slots, the cursor `word_i`, and
the completion channel modelled as the number of messages sent on `tx`. -/
structure Test where
  words : List TestWord
  word_i : Nat
  sent : Nat
  deriving DecidableEq, Repr

/-- The reduced input-event alphabet delivered to `handle_events`
(src/test.rs:105-150): a character key (space included, as
`KeyCode::Char(' ')`), backspace with or without a CONTROL/ALT modifier,
or any other key code (the `_ => {}` arm). -/
inductive Event where
  | char (c : Char)
  | backspace (wordDelete : Bool)
  | other
  deriving DecidableEq, Repr

/-- The completion check at the end of `handle_events` (src/test.rs:152-157):
if `word_i >= words.len() - 1` and the last word `is_typed`, one message is
sent on the channel. Callers guarantee `words` is nonempty (the function has
already indexed `words[word_i]`), so the `getLast? = none` arm is unreachable. -/
def checkCompletion (t : Test) : Test :=
  match t.words.getLast? with
  | none => t
  | some lastW =>
    if t.words.length - 1 ≤ t.word_i ∧ lastW.is_typed = true then
      { t with sent := t.sent + 1 }
    else t

/-- The span appended by a character press (src/test.rs:113-123): styled
`typed` when the press extends the target correctly at the current
classification length, `incorrect` otherwise. -/
def charSpan (w : TestWord) (c : Char) : Span :=
  if w.spans.length < w.word.length ∧ w.word[w.spans.length]? = some c then
    { text := [c], cls := SpanClass.typed }
  else
    { text := [c], cls := SpanClass.incorrect }

/-- `Test::handle_events` (src/test.rs:103-158). The function first indexes
`self.words[self.word_i]` (`none` when out of bounds, modelling the panic),
dispatches on the key, and finally runs the completion check.

* space: log a space press, advance `word_i` unconditionally;
* other character `c`: log the press and append `charSpan`;
* backspace with CONTROL/ALT (delete-word): when the active slot's spans are
  empty, first step `word_i` back (`none` when `word_i = 0`, modelling the
  `usize` underflow of `self.word_i -= 1`); then log a `WORD_BKSPC` press on
  the (possibly stepped-back-to) slot and clear its spans;
* plain backspace: log a `BKSPC` press, pop the last span, and step `word_i`
  back when the remaining spans are empty and `word_i > 0`;
* any other key: nothing, but the completion check still runs. -/
def handleEvent (t : Test) (e : Event) : Option Test :=
  match t.words[t.word_i]? with
  | none => none
  | some w =>
    match e with
    | Event.char c =>
      if c = ' ' then
        some (checkCompletion
          { t with
              words := t.words.set t.word_i { w with presses := w.presses ++ [' '] },
              word_i := t.word_i + 1 })
      else
        some (checkCompletion
          { t with
              words := t.words.set t.word_i
                { w with presses := w.presses ++ [c], spans := w.spans ++ [charSpan w c] } })
    | Event.backspace true =>
      if w.spans.length = 0 then
        if t.word_i = 0 then none
        else
          match t.words[t.word_i - 1]? with
          | none => none
          | some wPrev =>
            some (checkCompletion
              { t with
                  words := t.words.set (t.word_i - 1)
                    { wPrev with presses := wPrev.presses ++ [WORD_BKSPC], spans := [] },
                  word_i := t.word_i - 1 })
      else
        some (checkCompletion
          { t with
              words := t.words.set t.word_i
                { w with presses := w.presses ++ [WORD_BKSPC], spans := [] } })
    | Event.backspace false =>
      some (checkCompletion
        { t with
            words := t.words.set t.word_i
              { w with presses := w.presses ++ [BKSPC], spans := w.spans.dropLast },
            word_i :=
              if 0 < t.word_i ∧ w.spans.dropLast.length = 0 then t.word_i - 1
              else t.word_i })
    | Event.other => some (checkCompletion t)

/-- `Test::tw_as_span_vec` (src/test.rs:161-182): the cached spans; then,
when the slot is active, a cursor span for the next untyped character, or a
cursor space with an early return when the classification has covered the
whole target; then the untyped remainder of the word plus a trailing space.
The source computes the drop index as `min(sv.len(), word.len())` where `sv`
is the accumulator; its length — `spans.len() + 1` after the cursor push, or
`spans.len()` when the slot is inactive — is written inline here. -/
def twAsSpanVec (t : Test) (wi : Nat) (tw : TestWord) : List Span :=
  if t.word_i = wi then
    match tw.word[tw.spans.length]? with
    | some c =>
      (tw.spans ++ [{ text := [c], cls := SpanClass.cursor }]) ++
        [{ text := tw.word.drop (min (tw.spans.length + 1) tw.word.length) ++ [' '],
           cls := SpanClass.untyped }]
    | none => tw.spans ++ [{ text := [' '], cls := SpanClass.cursor }]
  else
    tw.spans ++ [{ text := tw.word.drop (min tw.spans.length tw.word.length) ++ [' '],
                   cls := SpanClass.untyped }]

/-- `Test::new` (src/test.rs:93-100): empty word list, cursor at 0, nothing
sent on the channel yet. -/
def Test.new : Test :=
  { words := [], word_i := 0, sent := 0 }

/-- `From<String> for TestWord` (src/test.rs:43-51): fresh slot with empty
press log and empty spans. -/
def testWordFrom (s : List Char) : TestWord :=
  { word := s, presses := [], spans := [] }

/-- `Test::test_from` (src/test.rs:185-189): replaces the word list with the
lowercased input words; `word_i` and the channel are left untouched, and no
validation of the input takes place. -/
def testFrom (t : Test) (ws : List (List Char)) : Test :=
  { t with words := ws.map (fun w => testWordFrom (w.map Char.toLower)) }

/-- A freshly constructed test: `Test::new` followed by `test_from`. -/
def initTest (ws : List (List Char)) : Test :=
  testFrom Test.new ws

/-- Feeds a list of events to `handleEvent` in order; `none` as soon as one
call fails. Reachable states of a test are exactly the `some` results. -/
def run (t : Test) (es : List Event) : Option Test :=
  match es with
  | [] => some t
  | e :: rest =>
    match handleEvent t e with
    | none => none
    | some t2 => run t2 rest

/-- Sanity: the four cases of the repository's unit test
`tests::test_keypress_correct` (src/test.rs:223-242). -/
theorem sanity_is_correct_cases :
    ({ word := ['t','e','s','t'], presses := ['t','e','s','t'], spans := [] }
      : TestWord).is_correct = true ∧
    ({ word := ['t','e','s','t'],
       presses := [' ','q',BKSPC,'t','e','s','t',' '], spans := [] }
      : TestWord).is_correct = true ∧
    ({ word := ['t','e','s','t'],
       presses := ['t','e','s','t','a','b','c',WORD_BKSPC,'t','e','s','t',' '],
       spans := [] } : TestWord).is_correct = true ∧
    ({ word := ['a','b','c','d'], presses := ['a','b','c','d','e'], spans := [] }
      : TestWord).is_correct = false := by
  decide

/-- The completion check never touches the word slots. -/
theorem checkCompletion_words (t : Test) : (checkCompletion t).words = t.words := by
  unfold checkCompletion
  split
  · rfl
  · split <;> rfl

/-- The completion check never moves the cursor. -/
theorem checkCompletion_word_i (t : Test) : (checkCompletion t).word_i = t.word_i := by
  unfold checkCompletion
  split
  · rfl
  · split <;> rfl

/-- One completion check sends either zero or one message. -/
theorem checkCompletion_sent_bounds (t : Test) {n : Nat} (h : t.sent = n) :
    n ≤ (checkCompletion t).sent ∧ (checkCompletion t).sent ≤ n + 1 := by
  subst h
  unfold checkCompletion
  split
  · exact ⟨Nat.le_refl _, Nat.le_succ _⟩
  · split
    · exact ⟨Nat.le_succ _, Nat.le_refl _⟩
    · exact ⟨Nat.le_refl _, Nat.le_succ _⟩

/-- Invariant transported along `run`: if every single `handleEvent` step
preserves `P`, then any successful event sequence preserves `P`. -/
theorem run_invariant (P : Test → Prop)
    (hstep : ∀ t t2 e, handleEvent t e = some t2 → P t → P t2) :
    ∀ (es : List Event) (t t2 : Test), run t es = some t2 → P t → P t2 := by
  intro es
  induction es with
  | nil =>
    intro t t2 h hP
    unfold run at h
    simp only [Option.some.injEq] at h
    subst h
    exact hP
  | cons e rest ih =>
    intro t t2 h hP
    unfold run at h
    cases he : handleEvent t e with
    | none => rw [he] at h; simp at h
    | some t3 => rw [he] at h; exact ih t3 t2 h (hstep t t3 e he hP)

/-- C5: the "typed" predicate holds exactly when the most recent keypress is
a space, or when replaying the slot's whole keypress log (characters
appended, `BKSPC` removing the last accumulated character, `WORD_BKSPC`
resetting the accumulator, spaces ignored) yields the target word. -/
theorem c5_is_typed_iff_last_space_or_replay (tw : TestWord) :
    tw.is_typed = true ↔
      (tw.presses.getLast? = some ' ' ∨ replay tw.presses = tw.word) := by
  unfold TestWord.is_typed TestWord.is_correct
  cases h : tw.presses.getLast? with
  | none => simp
  | some lp =>
    by_cases hlp : lp = ' '
    · subst hlp; simp
    · simp [hlp]

/-- C1: evaluation at the failing input. On a fresh one-word test (first
slot's classification empty, `word_i = 0`), a plain delete-character event is
the claimed no-op (`word_i` stays 0, classification stays empty), but a
delete-word event makes the call fail: `handle_events` runs `self.word_i -= 1`
with `word_i = 0`, a `usize` underflow, instead of the no-op the claim
requires. -/
theorem c1_delete_word_on_empty_first_slot_fails :
    (handleEvent (initTest [['t','e','s','t']]) (Event.backspace false)).map
        (fun u => (u.word_i, u.words.map TestWord.spans)) = some (0, [[]]) ∧
    handleEvent (initTest [['t','e','s','t']]) (Event.backspace true) = none := by
  decide

/-- C2 counterexample: on the one-word test "ab", the events
`a`, `b`, `x`, delete-character send twice: after `b` the replay equals the
target (first completion message), and after the delete the replay equals
the target again, so the channel has received two messages in one Test
lifetime — not exactly one. -/
theorem c2_counterexample_two_sends :
    (run (initTest [['a','b']])
        [Event.char 'a', Event.char 'b', Event.char 'x', Event.backspace false]).map
      Test.sent = some 2 := by
  decide

/-- C2 (amended): a single handled event pushes at most one message on the
completion channel, but nothing stops later events from pushing further
messages — the engine keeps no "already signaled" flag. -/
theorem c2_amended_at_most_one_send_per_event (t t2 : Test) (e : Event)
    (h : handleEvent t e = some t2) :
    t.sent ≤ t2.sent ∧ t2.sent ≤ t.sent + 1 := by
  unfold handleEvent at h
  repeat' split at h
  all_goals try (exact Option.noConfusion h)
  all_goals
    (simp only [Option.some.injEq] at h
     subst h
     exact checkCompletion_sent_bounds _ rfl)

/-- Witness for the amended C2 at a concrete input. -/
theorem c2_amended_witness :
    (initTest [['a']]).sent ≤ 1 ∧ 1 ≤ (initTest [['a']]).sent + 1 := by
  have h : handleEvent (initTest [['a']]) (Event.char 'a') =
      some { words := [{ word := ['a'], presses := ['a'],
                         spans := [{ text := ['a'], cls := SpanClass.typed }] }],
             word_i := 0, sent := 1 } := by decide
  simpa using c2_amended_at_most_one_send_per_event _ _ _ h

/-- C3 counterexample: against the four-character target "abcd", the five
keys `a,b,c,d,e` leave the slot with five classification entries — the
classification length exceeds the target length. -/
theorem c3_counterexample_overtyping :
    (run (initTest [['a','b','c','d']])
        [Event.char 'a', Event.char 'b', Event.char 'c', Event.char 'd',
         Event.char 'e']).map
      (fun t => t.words.map fun w => (w.spans.length, w.word.length)) =
    some [(5, 4)] := by
  decide

/-- C4 counterexample: on a one-word test, a single space advances `word_i`
to 1 while `len(slots) - 1 = 0` — the cursor exceeds the final slot index. -/
theorem c4_counterexample_space_on_final_slot :
    (run (initTest [['a']]) [Event.char ' ']).map
      (fun t => (t.word_i, t.words.length)) = some (1, 1) := by
  decide

/-- C6 counterexample: on the one-word test "a", the key `a` completes the
test (one message sent); the subsequent key `b` is accepted and mutates the
slot — its keypress log grows to `['a','b']` — contradicting "performs no
further slot mutation". -/
theorem c6_counterexample_mutation_after_completion :
    (run (initTest [['a']]) [Event.char 'a']).map Test.sent = some 1 ∧
    (run (initTest [['a']]) [Event.char 'a', Event.char 'b']).map
      (fun t => t.words.map fun w => w.presses) = some [['a', 'b']] := by
  decide

/-- C6 (amended): once `word_i` has moved past the final slot (a space on
the final slot), every subsequent call fails: `handle_events` indexes
`self.words[self.word_i]` out of bounds before doing anything else. -/
theorem c6_amended_rejected_past_end (t : Test) (e : Event)
    (h : t.words.length ≤ t.word_i) :
    handleEvent t e = none := by
  unfold handleEvent
  rw [List.getElem?_eq_none h]

/-- Witness for the amended C6 at a concrete input. -/
theorem c6_amended_witness :
    handleEvent { words := [testWordFrom ['a']], word_i := 1, sent := 1 }
      Event.other = none :=
  c6_amended_rejected_past_end _ Event.other (by decide)

/-- C8 counterexample: words "a", "b"; keys `a`, space, delete-character.
The delete arrives with `word_i = 1` and slot 1's classification empty; the
engine steps back to slot 0 and leaves slot 0 untouched, but the `BKSPC`
sentinel is logged in slot 1's keypress log — the slot that was active when
the event arrived — not in slot 0's log as the claim states. -/
theorem c8_counterexample_sentinel_slot :
    run (initTest [['a'], ['b']])
        [Event.char 'a', Event.char ' ', Event.backspace false] =
      some { words :=
               [{ word := ['a'], presses := ['a', ' '],
                  spans := [{ text := ['a'], cls := SpanClass.typed }] },
                { word := ['b'], presses := [BKSPC], spans := [] }],
             word_i := 0, sent := 0 } := by
  decide

/-- C10 counterexample: `test_from` with an empty word source succeeds and
reports nothing — construction yields a zero-slot Test — and the failure
only surfaces mid-test: the first `handle_events` call fails (out-of-bounds
index into the empty slot list). -/
theorem c10_counterexample_empty_construction :
    (testFrom Test.new []).words = [] ∧
    handleEvent (testFrom Test.new []) (Event.char 't') = none := by
  decide

/-- C10 (amended): constructing a Test with zero words is not detected at
construction time (`test_from` performs no validation and cannot report an
error); instead every subsequent event fails while handling events
mid-test. -/
theorem c10_amended_failure_is_mid_test (e : Event) :
    handleEvent (testFrom Test.new []) e = none := rfl

/-- A successful `handleEvent` call leaves the cursor at or below the slot
count: it requires `word_i < len(words)` on entry (the initial indexing),
and moves the cursor by at most one step up. -/
theorem handleEvent_word_i_le (t t2 : Test) (e : Event)
    (h : handleEvent t e = some t2) : t2.word_i ≤ t2.words.length := by
  unfold handleEvent at h
  split at h
  · exact Option.noConfusion h
  · rename_i w hw
    have hlt : t.word_i < t.words.length := by
      rcases List.getElem?_eq_some.mp hw with ⟨h1, _⟩
      exact h1
    repeat' split at h
    all_goals try (exact Option.noConfusion h)
    all_goals
      (simp only [Option.some.injEq] at h
       subst h
       simp only [checkCompletion_word_i, checkCompletion_words, List.length_set]
       omega)

/-- The per-slot bookkeeping invariant: a slot never carries more render
spans than keypresses (every span push is paired with a press push). -/
def slotInv (t : Test) : Prop :=
  ∀ w ∈ t.words, w.spans.length ≤ w.presses.length

/-- A successful `handleEvent` call preserves `slotInv`. -/
theorem handleEvent_slotInv (t t2 : Test) (e : Event)
    (h : handleEvent t e = some t2) (hI : slotInv t) : slotInv t2 := by
  unfold handleEvent at h
  split at h
  · exact Option.noConfusion h
  · rename_i w hw
    have hwle : w.spans.length ≤ w.presses.length := hI w (List.getElem?_mem hw)
    repeat' split at h
    all_goals try (exact Option.noConfusion h)
    all_goals
      (simp only [Option.some.injEq] at h
       subst h
       intro w2 hw2
       simp only [checkCompletion_words] at hw2)
    all_goals
      first
        | exact hI w2 hw2
        | (rcases List.mem_or_eq_of_mem_set hw2 with hmem | rfl
           · exact hI w2 hmem
           · simp only [List.length_append, List.length_dropLast, List.length_cons,
               List.length_nil]
             omega)

/-- C3 (amended): for every slot at every reachable state, the length of the
slot's render classification is at most the number of keypresses logged for
that slot.  (The claim's bound by the target length fails: over-typing keeps
appending classification entries past the target's length.) -/
theorem c3_amended_spans_le_presses (ws : List (List Char)) (es : List Event)
    (t : Test) (h : run (initTest ws) es = some t) :
    ∀ w ∈ t.words, w.spans.length ≤ w.presses.length := by
  refine run_invariant slotInv handleEvent_slotInv es (initTest ws) t h ?_
  intro w hw
  simp only [initTest, testFrom, Test.new, List.mem_map] at hw
  obtain ⟨a, _, rfl⟩ := hw
  simp [testWordFrom]

/-- Witness for the amended C3 at a concrete input. -/
theorem c3_amended_witness :
    ({ word := ['a'], presses := ['a'],
       spans := [{ text := ['a'], cls := SpanClass.typed }] } : TestWord).spans.length ≤
    ({ word := ['a'], presses := ['a'],
       spans := [{ text := ['a'], cls := SpanClass.typed }] } : TestWord).presses.length :=
  c3_amended_spans_le_presses [['a']] [Event.char 'a']
    { words := [{ word := ['a'], presses := ['a'],
                  spans := [{ text := ['a'], cls := SpanClass.typed }] }],
      word_i := 0, sent := 1 }
    (by decide) _ (by decide)

/-- C4 (amended): at every reachable state, `0 ≤ word_i ≤ len(slots)`.  The
claim's bound `word_i ≤ len(slots) - 1` fails: a space on the final slot
advances `word_i` to `len(slots)`, one past the final index (after which
every further call fails); `word_i` never exceeds `len(slots)`. -/
theorem c4_amended_word_i_le_length (ws : List (List Char)) (es : List Event)
    (t : Test) (h : run (initTest ws) es = some t) :
    t.word_i ≤ t.words.length :=
  run_invariant (fun u => u.word_i ≤ u.words.length)
    (fun u u2 e he _ => handleEvent_word_i_le u u2 e he)
    es (initTest ws) t h (Nat.zero_le _)

/-- Witness for the amended C4 at a concrete input. -/
theorem c4_amended_witness :
    ({ words := [{ word := ['a'], presses := [' '], spans := [] }],
       word_i := 1, sent := 1 } : Test).word_i ≤
    ({ words := [{ word := ['a'], presses := [' '], spans := [] }],
       word_i := 1, sent := 1 } : Test).words.length :=
  c4_amended_word_i_le_length [['a']] [Event.char ' ']
    { words := [{ word := ['a'], presses := [' '], spans := [] }],
      word_i := 1, sent := 1 }
    (by decide)

/-- C7: a printable character press on the active slot always appends one
classification entry (even past the target's length), tagged `typed` exactly
when the classification length is below the target length and the pressed
character equals the target character at that position, `incorrect`
otherwise — the content of `charSpan`. -/
theorem c7_char_always_appends (t : Test) (w : TestWord) (c : Char)
    (hc : c ≠ ' ') (hw : t.words[t.word_i]? = some w) :
    (handleEvent t (Event.char c)).map (fun u => u.words[t.word_i]?) =
      some (some { w with presses := w.presses ++ [c],
                          spans := w.spans ++ [charSpan w c] }) := by
  have hlt : t.word_i < t.words.length := by
    rcases List.getElem?_eq_some.mp hw with ⟨h1, _⟩
    exact h1
  unfold handleEvent
  split
  · rename_i hnone
    rw [hw] at hnone
    exact Option.noConfusion hnone
  · rename_i w' hw'
    rw [hw] at hw'
    injection hw' with hww
    subst hww
    dsimp only
    rw [if_neg hc]
    simp only [Option.map_some', checkCompletion_words, Option.some.injEq]
    exact List.getElem?_set_eq_of_lt _ hlt

/-- Witness for C7 at a concrete input. -/
theorem c7_witness :
    (handleEvent (initTest [['a','b']]) (Event.char 'a')).map
        (fun u => u.words[(0 : Nat)]?) =
      some (some { word := ['a','b'], presses := ['a'],
                   spans := [{ text := ['a'], cls := SpanClass.typed }] }) :=
  c7_char_always_appends (initTest [['a','b']])
    { word := ['a','b'], presses := [], spans := [] } 'a' (by decide) (by decide)

/-- C8 (amended): a delete-character event with `word_i > 0` and the active
slot's classification empty steps `word_i` back by one and leaves the
previous slot entirely unaltered, but the `BKSPC` sentinel is logged against
the slot that was active when the event arrived — not against the
stepped-back-to slot, contrary to the claim. -/
theorem c8_amended_sentinel_on_arrival_slot (t : Test) (w : TestWord)
    (hwi : 0 < t.word_i) (hw : t.words[t.word_i]? = some w)
    (hsp : w.spans = []) :
    (handleEvent t (Event.backspace false)).map
        (fun u => (u.word_i, u.words[t.word_i]?, u.words[t.word_i - 1]?)) =
      some (t.word_i - 1,
            some { w with presses := w.presses ++ [BKSPC] },
            t.words[t.word_i - 1]?) := by
  have hlt : t.word_i < t.words.length := by
    rcases List.getElem?_eq_some.mp hw with ⟨h1, _⟩
    exact h1
  unfold handleEvent
  split
  · rename_i hnone
    rw [hw] at hnone
    exact Option.noConfusion hnone
  · rename_i w' hw'
    rw [hw] at hw'
    injection hw' with hww
    subst hww
    dsimp only
    rw [hsp]
    rw [if_pos (show 0 < t.word_i ∧ ([] : List Span).dropLast.length = 0 from ⟨hwi, rfl⟩)]
    simp only [Option.map_some', checkCompletion_word_i, checkCompletion_words,
      Option.some.injEq, Prod.mk.injEq]
    refine ⟨trivial, ?_, ?_⟩
    · rw [List.getElem?_set_eq_of_lt _ hlt]
      simp [List.dropLast]
    · exact List.getElem?_set_ne (show t.word_i ≠ t.word_i - 1 by omega)

/-- Witness for the amended C8 at a concrete input. -/
theorem c8_amended_witness :
    (handleEvent
        { words := [{ word := ['a'], presses := ['a', ' '],
                      spans := [{ text := ['a'], cls := SpanClass.typed }] },
                    { word := ['b'], presses := [], spans := [] }],
          word_i := 1, sent := 0 }
        (Event.backspace false)).map
        (fun u => (u.word_i, u.words[(1 : Nat)]?, u.words[(0 : Nat)]?)) =
      some (0,
            some { word := ['b'], presses := [BKSPC], spans := [] },
            some { word := ['a'], presses := ['a', ' '],
                   spans := [{ text := ['a'], cls := SpanClass.typed }] }) :=
  c8_amended_sentinel_on_arrival_slot
    { words := [{ word := ['a'], presses := ['a', ' '],
                  spans := [{ text := ['a'], cls := SpanClass.typed }] },
                { word := ['b'], presses := [], spans := [] }],
      word_i := 1, sent := 0 }
    { word := ['b'], presses := [], spans := [] }
    (by decide) (by decide) rfl

/-- C9: for the active slot, the render query emits the cached
classification entries followed by one cursor-tagged entry: the next untyped
character of the target when the classification length is below the target
length, or a single cursor-tagged space — with nothing after it, in
particular no trailing untyped fragment — when the classification length
equals the target length. -/
theorem c9_active_slot_cursor (t : Test) (wi : Nat) (tw : TestWord)
    (hactive : t.word_i = wi) :
    (tw.spans.length < tw.word.length →
      (twAsSpanVec t wi tw).take (tw.spans.length + 1) =
        tw.spans ++ [{ text := [tw.word.getD tw.spans.length ' '],
                       cls := SpanClass.cursor }]) ∧
    (tw.spans.length = tw.word.length →
      twAsSpanVec t wi tw =
        tw.spans ++ [{ text := [' '], cls := SpanClass.cursor }]) := by
  unfold twAsSpanVec
  rw [if_pos hactive]
  split
  · rename_i c heq
    constructor
    · intro hlen
      rw [List.take_left' (by simp)]
      have hcd : tw.word.getD tw.spans.length ' ' = c := by
        rw [List.getD_eq_getElem tw.word ' ' hlen]
        rw [List.getElem?_eq_getElem hlen] at heq
        exact Option.some.inj heq
      rw [hcd]
    · intro hlen
      rw [List.getElem?_eq_none hlen.symm.le] at heq
      exact Option.noConfusion heq
  · rename_i heq
    constructor
    · intro hlen
      rw [List.getElem?_eq_getElem hlen] at heq
      exact Option.noConfusion heq
    · intro _
      rfl

/-- Witness for C9 at concrete inputs: one slot mid-word (cursor on the next
character) and one slot with the target fully classified (cursor space and
nothing after it). -/
theorem c9_witness :
    (twAsSpanVec { words := [], word_i := 0, sent := 0 } 0
        { word := ['a','b'], presses := [], spans := [] }).take 1 =
      [{ text := ['a'], cls := SpanClass.cursor }] ∧
    twAsSpanVec { words := [], word_i := 1, sent := 0 } 1
        { word := ['a'], presses := ['a'],
          spans := [{ text := ['a'], cls := SpanClass.typed }] } =
      [{ text := ['a'], cls := SpanClass.typed },
       { text := [' '], cls := SpanClass.cursor }] :=
  ⟨(c9_active_slot_cursor { words := [], word_i := 0, sent := 0 } 0
      { word := ['a','b'], presses := [], spans := [] } rfl).1 (by decide),
   (c9_active_slot_cursor { words := [], word_i := 1, sent := 0 } 1
      { word := ['a'], presses := ['a'],
        spans := [{ text := ['a'], cls := SpanClass.typed }] } rfl).2 (by decide)⟩

end Arstyper
